import Mathlib

/-!
Shallow embedding of the stock-analysis application
(`src/stock_analyzer_full.py`) and proofs about its scoring engine,
history store, monthly-ranking aggregator and retry-aware fetcher.

Embedding conventions:
* Python values stored in the `info` dict are modelled by `Val`:
  a numeric value (Python int/float, modelled as an exact rational),
  a string, or `None` (`Val.null`).  Python truthiness (`if x:`) is
  `Val.truthy`; Python's `None`-check (`x is not None`) is `Val.isNotNull`.
* Python dicts are association lists; `dict.get(k, None)` is `Info.get`.
* A Python expression that can raise (`TypeError` from comparing a string
  with a number) is modelled in the `Except Unit` monad; `.error ()`
  means "an exception was raised".
* Format strings such as `f'\x7brg*100:.1f\x7d%'` are modelled by the
  `ValueRepr` constructors, which record which rendering was chosen and
  the raw rational being rendered (exact decimal rendering of floats is
  not needed by any property proved here).
* The persisted JSON files are modelled by passing the loaded state in
  and returning the state that is written back.
-/

namespace StockApp

instance {ε α : Type _} [DecidableEq ε] [DecidableEq α] : DecidableEq (Except ε α) := fun x y =>
  match x, y with
  | .ok a, .ok b => decidable_of_iff (a = b) (by simp)
  | .error a, .error b => decidable_of_iff (a = b) (by simp)
  | .ok _, .error _ => isFalse (fun h => Except.noConfusion h)
  | .error _, .ok _ => isFalse (fun h => Except.noConfusion h)

/-- A value held in the `info` mapping: a number, a string, or Python `None`. -/
inductive Val where
  | num : ℚ → Val
  | str : String → Val
  | null : Val
deriving DecidableEq

/-- Python truthiness: `0`, `""` and `None` are falsy, everything else truthy. -/
def Val.truthy : Val → Bool
  | .num q => decide (q ≠ 0)
  | .str s => decide (s ≠ "")
  | .null => false

/-- Python `v is not None`. -/
def Val.isNotNull : Val → Bool
  | .null => false
  | _ => true

/-- Well-typed values: numeric or `None` (what the data provider actually
returns for these fields).  Strings are the malformed case. -/
def Val.wellTyped : Val → Bool
  | .str _ => false
  | _ => true

/-- The rational carried by a numeric value (only used in positions that the
control flow guarantees are numeric). -/
def Val.toQ : Val → ℚ
  | .num q => q
  | _ => 0

/-- Python `v > c` for a numeric literal `c`: raises `TypeError` unless `v`
is a number. -/
def Val.cmpGt : Val → ℚ → Except Unit Bool
  | .num q, c => .ok (decide (c < q))
  | _, _ => .error ()

/-- Python `v < c`: raises unless `v` is a number. -/
def Val.cmpLt : Val → ℚ → Except Unit Bool
  | .num q, c => .ok (decide (q < c))
  | _, _ => .error ()

/-- Python `v <= c`: raises unless `v` is a number. -/
def Val.cmpLe : Val → ℚ → Except Unit Bool
  | .num q, c => .ok (decide (q ≤ c))
  | _, _ => .error ()

/-- Python `v > w` for two info values.  Numbers compare numerically; every
other combination is an exception.  (For two non-empty strings Python's
comparison itself succeeds, but both continuations of the one place this is
used — the EPS criterion — then raise, at the `:.2f` format in the taken
branch or at the `eps > 0` comparison in the other, so collapsing the
string/string case to an exception yields the same observable result on
every input.) -/
def Val.cmpGtV : Val → Val → Except Unit Bool
  | .num a, .num b => .ok (decide (b < a))
  | _, _ => .error ()

/-- Python `v and v > c` (short-circuit: the comparison is only evaluated,
and can only raise, when `v` is truthy). -/
def pandGt (v : Val) (c : ℚ) : Except Unit Bool :=
  if v.truthy then v.cmpGt c else .ok false

/-- Python `v and v <= c`. -/
def pandLe (v : Val) (c : ℚ) : Except Unit Bool :=
  if v.truthy then v.cmpLe c else .ok false

/-- Python `v is not None and v < c`. -/
def notNullLt (v : Val) (c : ℚ) : Except Unit Bool :=
  if v.isNotNull then v.cmpLt c else .ok false

/-- The `info` mapping: association list of field name to value. -/
abbrev Info := List (String × Val)

/-- Python `info.get(key, None)`. -/
def Info.get (m : Info) (k : String) : Val :=
  match m.find? (fun p => p.1 = k) with
  | some p => p.2
  | none => Val.null

/-- How a criterion's `value` field was rendered (the raw rational is kept;
the constructor records which format string the code chose). -/
inductive ValueRepr where
  | na : ValueRepr
  | pct : ℚ → ValueRepr
  | pair : ℚ → ℚ → ValueRepr
  | plain : ℚ → ValueRepr
  | billions : ℚ → ValueRepr
  | dte : ℚ → ValueRepr
  | yen : ℚ → ValueRepr
deriving DecidableEq

/-- One criterion's evaluation, mirroring the per-criterion dicts
`score_details[key] = dict of score, status, value`. -/
structure ScoreDetail where
  score : ℕ
  status : String
  value : ValueRepr
deriving DecidableEq

def sPass : String := "✅ 合格"
def sWarn : String := "△ 要改善"
def sFail : String := "❌ 不合格"

/-- A breakdown entry: either the degraded-input note or a criterion detail. -/
inductive Entry where
  | note : String → Entry
  | detail : ScoreDetail → Entry
deriving DecidableEq

/-- The points an entry contributes to `sum(item['score'] for item ...)`. -/
def Entry.points : Entry → ℕ
  | .note _ => 0
  | .detail d => d.score

def noteMsg : String := "企業情報が取得できないため、標準スコアを表示"

/-- Criterion 1, `revenueGrowth` (weight 15, lines 150-157). -/
def scoreRevenue (v : Val) : Except Unit ScoreDetail := do
  if ← pandGt v (mkRat 5 100) then
    pure ⟨15, sPass, .pct v.toQ⟩
  else if ← pandGt v 0 then
    pure ⟨8, sWarn, .pct v.toQ⟩
  else
    pure ⟨0, sFail, .na⟩

/-- The guard `eps and eps_forward and eps_forward > eps` (line 162). -/
def epsCond (eps epsf : Val) : Except Unit Bool :=
  if eps.truthy then
    if epsf.truthy then Val.cmpGtV epsf eps else .ok false
  else .ok false

/-- Criterion 2, `trailingEps` / `forwardEps` (weight 15, lines 159-167). -/
def scoreEps (eps epsf : Val) : Except Unit ScoreDetail := do
  if ← epsCond eps epsf then
    pure ⟨15, sPass, .pair eps.toQ epsf.toQ⟩
  else if ← pandGt eps 0 then
    pure ⟨8, sWarn, .plain eps.toQ⟩
  else
    pure ⟨0, sFail, .na⟩

/-- Criterion 3, `totalAssets` (weight 10, lines 169-174). -/
def scoreAssets (v : Val) : Except Unit ScoreDetail := do
  if ← pandGt v 0 then
    pure ⟨10, sPass, .billions v.toQ⟩
  else
    pure ⟨0, sFail, .na⟩

/-- Criterion 4, `operatingCashflow` (weight 10, lines 176-181). -/
def scoreOperatingCf (v : Val) : Except Unit ScoreDetail := do
  if ← pandGt v 0 then
    pure ⟨10, sPass, .billions v.toQ⟩
  else
    pure ⟨0, sFail, .na⟩

/-- Criterion 5, `totalCash` (weight 10, lines 183-188). -/
def scoreCash (v : Val) : Except Unit ScoreDetail := do
  if ← pandGt v 0 then
    pure ⟨10, sPass, .billions v.toQ⟩
  else
    pure ⟨0, sFail, .na⟩

/-- Criterion 6, `returnOnEquity` (weight 10, lines 190-197). -/
def scoreRoe (v : Val) : Except Unit ScoreDetail := do
  if ← pandGt v (mkRat 7 100) then
    pure ⟨10, sPass, .pct v.toQ⟩
  else if ← pandGt v 0 then
    pure ⟨5, sWarn, .pct v.toQ⟩
  else
    pure ⟨0, sFail, .na⟩

/-- Criterion 7, `debtToEquity` (weight 10, lines 199-206).  Note the guard
is `is not None`, not truthiness, so a zero value is "present" here. -/
def scoreEquity (v : Val) : Except Unit ScoreDetail := do
  if ← notNullLt v 100 then
    pure ⟨10, sPass, .dte v.toQ⟩
  else if v.isNotNull then
    pure ⟨5, sWarn, .dte v.toQ⟩
  else
    pure ⟨0, sFail, .na⟩

/-- Criterion 8, `dividendRate` (weight 10, lines 208-213). -/
def scoreDividend (v : Val) : Except Unit ScoreDetail := do
  if ← pandGt v 0 then
    pure ⟨10, sPass, .yen v.toQ⟩
  else
    pure ⟨0, sFail, .na⟩

/-- Criterion 9, `payoutRatio` (weight 10, lines 215-222).  The guard is
truthiness, so a zero value falls through to the FAIL tier. -/
def scorePayout (v : Val) : Except Unit ScoreDetail := do
  if ← pandLe v (mkRat 40 100) then
    pure ⟨10, sPass, .pct v.toQ⟩
  else if v.truthy then
    pure ⟨5, sWarn, .pct v.toQ⟩
  else
    pure ⟨0, sFail, .na⟩

/-- The nine-criterion branch of `calculate_comprehensive_score`
(lines 145-225): evaluate the criteria in source order, build the ordered
breakdown, and total `sum(item['score'] for item in score_details.values())`. -/
def scoreAll (info : Info) : Except Unit (ℕ × List (String × Entry)) := do
  let d1 ← scoreRevenue (Info.get info "revenueGrowth")
  let d2 ← scoreEps (Info.get info "trailingEps") (Info.get info "forwardEps")
  let d3 ← scoreAssets (Info.get info "totalAssets")
  let d4 ← scoreOperatingCf (Info.get info "operatingCashflow")
  let d5 ← scoreCash (Info.get info "totalCash")
  let d6 ← scoreRoe (Info.get info "returnOnEquity")
  let d7 ← scoreEquity (Info.get info "debtToEquity")
  let d8 ← scoreDividend (Info.get info "dividendRate")
  let d9 ← scorePayout (Info.get info "payoutRatio")
  let details : List (String × Entry) :=
    [("revenue", .detail d1), ("eps", .detail d2), ("assets", .detail d3),
     ("operating_cf", .detail d4), ("cash", .detail d5), ("roe", .detail d6),
     ("equity_ratio", .detail d7), ("dividend", .detail d8),
     ("payout_ratio", .detail d9)]
  pure ((details.map (fun p => Entry.points p.2)).sum, details)

/-- `StockAnalyzer.calculate_comprehensive_score` (lines 140-225).  The
argument is `data.get('info')`: `none` when `data` is falsy or has no
(truthy) `info`; the empty mapping is likewise short-circuited to the
neutral score (line 142's `not data.get('info')`). -/
def calculate_comprehensive_score (info : Option Info) :
    Except Unit (ℕ × List (String × Entry)) :=
  match info with
  | Option.none => .ok (50, [("note", Entry.note noteMsg)])
  | some m =>
    if m.isEmpty then .ok (50, [("note", Entry.note noteMsg)])
    else scoreAll m

example : calculate_comprehensive_score (some []) =
    .ok (50, [("note", Entry.note noteMsg)]) := by decide

example :
    calculate_comprehensive_score
      (some [("revenueGrowth", Val.num (mkRat 10 100)), ("trailingEps", Val.num 2),
             ("forwardEps", Val.num (mkRat 5 2)), ("totalAssets", Val.num 5000000000),
             ("operatingCashflow", Val.num 1000000000),
             ("totalCash", Val.num 2000000000), ("returnOnEquity", Val.num (mkRat 9 100)),
             ("debtToEquity", Val.num 80), ("dividendRate", Val.num 30),
             ("payoutRatio", Val.num (mkRat 35 100))]) =
    .ok (100,
      [("revenue", .detail ⟨15, sPass, .pct (mkRat 10 100)⟩),
       ("eps", .detail ⟨15, sPass, .pair 2 (mkRat 5 2)⟩),
       ("assets", .detail ⟨10, sPass, .billions 5000000000⟩),
       ("operating_cf", .detail ⟨10, sPass, .billions 1000000000⟩),
       ("cash", .detail ⟨10, sPass, .billions 2000000000⟩),
       ("roe", .detail ⟨10, sPass, .pct (mkRat 9 100)⟩),
       ("equity_ratio", .detail ⟨10, sPass, .dte 80⟩),
       ("dividend", .detail ⟨10, sPass, .yen 30⟩),
       ("payout_ratio", .detail ⟨10, sPass, .pct (mkRat 35 100)⟩)]) := by decide

example : calculate_comprehensive_score (some [("revenueGrowth", Val.str "x")]) =
    .error () := by decide

example : scorePayout (Val.num 0) = .ok ⟨0, sFail, .na⟩ := by decide

/-! The thresholds written `mkRat _ _` above are exactly the source's float
literals `0.05`, `0.07`, `0.40` (which are not exactly representable in
binary floating point; the scoring thresholds are modelled as the exact
decimals, the standard idealisation for a float-free reading of the code). -/

lemma mkRat_5_100 : (mkRat 5 100 : ℚ) = 0.05 := by norm_num [Rat.mkRat_eq_div]

lemma mkRat_7_100 : (mkRat 7 100 : ℚ) = 0.07 := by norm_num [Rat.mkRat_eq_div]

lemma mkRat_40_100 : (mkRat 40 100 : ℚ) = 0.40 := by norm_num [Rat.mkRat_eq_div]

/-! ### Helper lemmas for the scoring engine -/

lemma ok_bind {α β : Type} (a : α) (f : α → Except Unit β) :
    (Except.ok a : Except Unit α) >>= f = f a := rfl

lemma pandGt_num (q c : ℚ) :
    pandGt (Val.num q) c = .ok (decide (q ≠ 0) && decide (c < q)) := by
  unfold pandGt Val.truthy Val.cmpGt
  by_cases h : q = 0 <;> simp [h]

lemma pandLe_num (q c : ℚ) :
    pandLe (Val.num q) c = .ok (decide (q ≠ 0) && decide (q ≤ c)) := by
  unfold pandLe Val.truthy Val.cmpLe
  by_cases h : q = 0 <;> simp [h]

lemma scoreRevenue_wt (v : Val) (h : v.wellTyped = true) :
    ∃ d, scoreRevenue v = .ok d ∧ d.score ≤ 15 := by
  cases v with
  | str s => simp [Val.wellTyped] at h
  | null => exact ⟨_, rfl, by norm_num⟩
  | num q =>
    unfold scoreRevenue
    rw [pandGt_num, pandGt_num]
    cases decide (q ≠ 0) && decide (mkRat 5 100 < q) <;>
      cases decide (q ≠ 0) && decide ((0 : ℚ) < q) <;>
      exact ⟨_, rfl, by norm_num⟩

lemma scoreEps_wt (v w : Val) (hv : v.wellTyped = true) (hw : w.wellTyped = true) :
    ∃ d, scoreEps v w = .ok d ∧ d.score ≤ 15 := by
  have hcond : ∃ b, epsCond v w = .ok b := by
    cases v with
    | str s => simp [Val.wellTyped] at hv
    | null => exact ⟨false, rfl⟩
    | num q =>
      cases w with
      | str s => simp [Val.wellTyped] at hw
      | null =>
        unfold epsCond Val.truthy
        by_cases h : q = 0 <;> simp [h]
      | num p =>
        unfold epsCond Val.truthy Val.cmpGtV
        by_cases h : q = 0 <;> by_cases h' : p = 0 <;> simp [h, h']
  obtain ⟨b, hb⟩ := hcond
  have hgt : ∃ b', pandGt v 0 = .ok b' := by
    cases v with
    | str s => simp [Val.wellTyped] at hv
    | null => exact ⟨false, rfl⟩
    | num q => exact ⟨_, pandGt_num q 0⟩
  obtain ⟨b', hb'⟩ := hgt
  unfold scoreEps
  rw [hb, hb']
  cases b <;> cases b' <;> exact ⟨_, rfl, by norm_num⟩

lemma posCriterion_wt (v : Val) (h : v.wellTyped = true) (rep : ℚ → ValueRepr)
    (k : ℕ) :
    ∃ d, (do
        if ← pandGt v 0 then
          pure (⟨k, sPass, rep v.toQ⟩ : ScoreDetail)
        else
          pure ⟨0, sFail, .na⟩ : Except Unit ScoreDetail) = .ok d ∧ d.score ≤ k := by
  cases v with
  | str s => simp [Val.wellTyped] at h
  | null => exact ⟨_, rfl, by norm_num⟩
  | num q =>
    rw [pandGt_num]
    cases decide (q ≠ 0) && decide ((0 : ℚ) < q) <;> exact ⟨_, rfl, by norm_num⟩

lemma scoreAssets_wt (v : Val) (h : v.wellTyped = true) :
    ∃ d, scoreAssets v = .ok d ∧ d.score ≤ 10 :=
  posCriterion_wt v h .billions 10

lemma scoreOperatingCf_wt (v : Val) (h : v.wellTyped = true) :
    ∃ d, scoreOperatingCf v = .ok d ∧ d.score ≤ 10 :=
  posCriterion_wt v h .billions 10

lemma scoreCash_wt (v : Val) (h : v.wellTyped = true) :
    ∃ d, scoreCash v = .ok d ∧ d.score ≤ 10 :=
  posCriterion_wt v h .billions 10

lemma scoreDividend_wt (v : Val) (h : v.wellTyped = true) :
    ∃ d, scoreDividend v = .ok d ∧ d.score ≤ 10 :=
  posCriterion_wt v h .yen 10

lemma scoreRoe_wt (v : Val) (h : v.wellTyped = true) :
    ∃ d, scoreRoe v = .ok d ∧ d.score ≤ 10 := by
  cases v with
  | str s => simp [Val.wellTyped] at h
  | null => exact ⟨_, rfl, by norm_num⟩
  | num q =>
    unfold scoreRoe
    rw [pandGt_num, pandGt_num]
    cases decide (q ≠ 0) && decide (mkRat 7 100 < q) <;>
      cases decide (q ≠ 0) && decide ((0 : ℚ) < q) <;>
      exact ⟨_, rfl, by norm_num⟩

lemma notNullLt_num (q c : ℚ) :
    notNullLt (Val.num q) c = .ok (decide (q < c)) := rfl

lemma scoreEquity_wt (v : Val) (h : v.wellTyped = true) :
    ∃ d, scoreEquity v = .ok d ∧ d.score ≤ 10 := by
  cases v with
  | str s => simp [Val.wellTyped] at h
  | null => exact ⟨_, rfl, by norm_num⟩
  | num q =>
    unfold scoreEquity
    rw [notNullLt_num]
    cases decide (q < 100) <;> exact ⟨_, rfl, by norm_num⟩

lemma scorePayout_wt (v : Val) (h : v.wellTyped = true) :
    ∃ d, scorePayout v = .ok d ∧ d.score ≤ 10 := by
  cases v with
  | str s => simp [Val.wellTyped] at h
  | null => exact ⟨_, rfl, by norm_num⟩
  | num q =>
    unfold scorePayout
    rw [pandLe_num, ok_bind]
    split
    · exact ⟨_, rfl, by norm_num⟩
    · split
      · exact ⟨_, rfl, by norm_num⟩
      · exact ⟨_, rfl, by norm_num⟩

/-- A well-typed info mapping yields well-typed field lookups. -/
lemma get_wellTyped (m : Info) (hwt : ∀ p ∈ m, Val.wellTyped p.2 = true)
    (k : String) : (Info.get m k).wellTyped = true := by
  unfold Info.get
  cases hf : m.find? (fun p => p.1 = k) with
  | none => rfl
  | some p => exact hwt p (List.mem_of_find?_eq_some hf)

/-- Central characterisation: on a non-empty, well-typed info mapping the
scoring engine succeeds, returns the nine-entry breakdown in source order,
totals exactly the nine awarded scores, and each score is bounded by its
criterion's weight. -/
lemma scoreAll_wellTyped (info : Info)
    (hwt : ∀ p ∈ info, Val.wellTyped p.2 = true) :
    ∃ d1 d2 d3 d4 d5 d6 d7 d8 d9 : ScoreDetail,
      scoreAll info =
        .ok (d1.score + d2.score + d3.score + d4.score + d5.score + d6.score +
              d7.score + d8.score + d9.score,
          [("revenue", .detail d1), ("eps", .detail d2), ("assets", .detail d3),
           ("operating_cf", .detail d4), ("cash", .detail d5),
           ("roe", .detail d6), ("equity_ratio", .detail d7),
           ("dividend", .detail d8), ("payout_ratio", .detail d9)]) ∧
      d1.score ≤ 15 ∧ d2.score ≤ 15 ∧ d3.score ≤ 10 ∧ d4.score ≤ 10 ∧
      d5.score ≤ 10 ∧ d6.score ≤ 10 ∧ d7.score ≤ 10 ∧ d8.score ≤ 10 ∧
      d9.score ≤ 10 := by
  obtain ⟨d1, h1, b1⟩ := scoreRevenue_wt _ (get_wellTyped info hwt "revenueGrowth")
  obtain ⟨d2, h2, b2⟩ := scoreEps_wt _ _ (get_wellTyped info hwt "trailingEps")
    (get_wellTyped info hwt "forwardEps")
  obtain ⟨d3, h3, b3⟩ := scoreAssets_wt _ (get_wellTyped info hwt "totalAssets")
  obtain ⟨d4, h4, b4⟩ := scoreOperatingCf_wt _ (get_wellTyped info hwt "operatingCashflow")
  obtain ⟨d5, h5, b5⟩ := scoreCash_wt _ (get_wellTyped info hwt "totalCash")
  obtain ⟨d6, h6, b6⟩ := scoreRoe_wt _ (get_wellTyped info hwt "returnOnEquity")
  obtain ⟨d7, h7, b7⟩ := scoreEquity_wt _ (get_wellTyped info hwt "debtToEquity")
  obtain ⟨d8, h8, b8⟩ := scoreDividend_wt _ (get_wellTyped info hwt "dividendRate")
  obtain ⟨d9, h9, b9⟩ := scorePayout_wt _ (get_wellTyped info hwt "payoutRatio")
  refine ⟨d1, d2, d3, d4, d5, d6, d7, d8, d9, ?_, b1, b2, b3, b4, b5, b6, b7, b8, b9⟩
  unfold scoreAll
  rw [h1, ok_bind, h2, ok_bind, h3, ok_bind, h4, ok_bind, h5, ok_bind,
    h6, ok_bind, h7, ok_bind, h8, ok_bind, h9, ok_bind]
  show Except.ok _ = _
  simp [Entry.points]
  omega

/-! ### Claims about the scoring engine -/

/-- Claim C1: for every non-empty info mapping of well-typed (numeric or
null) fields, `calculate_comprehensive_score` succeeds with a total score
between 0 and 100 (0 ≤ is automatic in `ℕ`), the total is exactly the sum
of the nine per-criterion points of the returned breakdown, and each
criterion's points are bounded by its weight 15, 15, 10, 10, 10, 10, 10,
10, 10. -/
theorem score_total_bounded_and_sums (info : Info) (hne : info ≠ [])
    (hwt : ∀ p ∈ info, Val.wellTyped p.2 = true) :
    ∃ d1 d2 d3 d4 d5 d6 d7 d8 d9 : ScoreDetail,
      calculate_comprehensive_score (some info) =
        .ok (d1.score + d2.score + d3.score + d4.score + d5.score + d6.score +
              d7.score + d8.score + d9.score,
          [("revenue", .detail d1), ("eps", .detail d2), ("assets", .detail d3),
           ("operating_cf", .detail d4), ("cash", .detail d5),
           ("roe", .detail d6), ("equity_ratio", .detail d7),
           ("dividend", .detail d8), ("payout_ratio", .detail d9)]) ∧
      d1.score ≤ 15 ∧ d2.score ≤ 15 ∧ d3.score ≤ 10 ∧ d4.score ≤ 10 ∧
      d5.score ≤ 10 ∧ d6.score ≤ 10 ∧ d7.score ≤ 10 ∧ d8.score ≤ 10 ∧
      d9.score ≤ 10 ∧
      d1.score + d2.score + d3.score + d4.score + d5.score + d6.score +
        d7.score + d8.score + d9.score ≤ 100 := by
  cases info with
  | nil => exact absurd rfl hne
  | cons a l =>
    obtain ⟨d1, d2, d3, d4, d5, d6, d7, d8, d9, h, b1, b2, b3, b4, b5, b6, b7, b8, b9⟩ :=
      scoreAll_wellTyped (a :: l) hwt
    exact ⟨d1, d2, d3, d4, d5, d6, d7, d8, d9, h, b1, b2, b3, b4, b5, b6, b7, b8, b9,
      by omega⟩

/-- Witness for C1 at the concrete mapping with a single `debtToEquity` field. -/
theorem score_total_bounded_and_sums_witness :
    ∃ d1 d2 d3 d4 d5 d6 d7 d8 d9 : ScoreDetail,
      calculate_comprehensive_score (some [("debtToEquity", Val.num 50)]) =
        .ok (d1.score + d2.score + d3.score + d4.score + d5.score + d6.score +
              d7.score + d8.score + d9.score,
          [("revenue", .detail d1), ("eps", .detail d2), ("assets", .detail d3),
           ("operating_cf", .detail d4), ("cash", .detail d5),
           ("roe", .detail d6), ("equity_ratio", .detail d7),
           ("dividend", .detail d8), ("payout_ratio", .detail d9)]) ∧
      d1.score ≤ 15 ∧ d2.score ≤ 15 ∧ d3.score ≤ 10 ∧ d4.score ≤ 10 ∧
      d5.score ≤ 10 ∧ d6.score ≤ 10 ∧ d7.score ≤ 10 ∧ d8.score ≤ 10 ∧
      d9.score ≤ 10 ∧
      d1.score + d2.score + d3.score + d4.score + d5.score + d6.score +
        d7.score + d8.score + d9.score ≤ 100 :=
  score_total_bounded_and_sums [("debtToEquity", Val.num 50)] (by decide) (by decide)

/-- Claim C2: an absent or empty info mapping short-circuits to total 50
with the single degraded-input note entry and no criterion entries. -/
theorem empty_info_neutral_score :
    calculate_comprehensive_score Option.none =
      .ok (50, [("note", Entry.note noteMsg)]) ∧
    calculate_comprehensive_score (some []) =
      .ok (50, [("note", Entry.note noteMsg)]) :=
  ⟨rfl, rfl⟩

/-- Counterexample to C7 as stated: a string-valued (malformed) field makes
the scoring function raise a `TypeError` (Python compares `"not a number"`
with the float threshold), rather than degrade to the FAIL tier. -/
theorem score_raises_on_string_field :
    calculate_comprehensive_score (some [("revenueGrowth", Val.str "not a number")]) =
      .error () := by decide

/-- Claim C7 (amended): `calculate_comprehensive_score` is total and never
raises on info mappings whose present fields are numeric or null — absent
or null fields degrade each criterion to the 0-point FAIL tier — but a
non-numeric (string-valued) field can raise. -/
theorem score_total_on_wellTyped :
    (∃ r, calculate_comprehensive_score Option.none = .ok r) ∧
    (∀ info : Info, (∀ p ∈ info, Val.wellTyped p.2 = true) →
      ∃ r, calculate_comprehensive_score (some info) = .ok r) ∧
    scoreRevenue Val.null = .ok ⟨0, sFail, .na⟩ ∧
    (∀ w : Val, scoreEps Val.null w = .ok ⟨0, sFail, .na⟩) ∧
    scoreAssets Val.null = .ok ⟨0, sFail, .na⟩ ∧
    scoreOperatingCf Val.null = .ok ⟨0, sFail, .na⟩ ∧
    scoreCash Val.null = .ok ⟨0, sFail, .na⟩ ∧
    scoreRoe Val.null = .ok ⟨0, sFail, .na⟩ ∧
    scoreEquity Val.null = .ok ⟨0, sFail, .na⟩ ∧
    scoreDividend Val.null = .ok ⟨0, sFail, .na⟩ ∧
    scorePayout Val.null = .ok ⟨0, sFail, .na⟩ := by
  refine ⟨⟨_, rfl⟩, ?_, rfl, fun w => rfl, rfl, rfl, rfl, rfl, rfl, rfl, rfl⟩
  intro info hwt
  cases info with
  | nil => exact ⟨_, rfl⟩
  | cons a l =>
    obtain ⟨d1, d2, d3, d4, d5, d6, d7, d8, d9, h, -⟩ :=
      scoreAll_wellTyped (a :: l) hwt
    exact ⟨_, h⟩

/-- Witness for the amended C7 at a concrete well-typed mapping. -/
theorem score_total_on_wellTyped_witness :
    ∃ r, calculate_comprehensive_score (some [("totalCash", Val.num 5)]) = .ok r :=
  score_total_on_wellTyped.2.1 [("totalCash", Val.num 5)] (by decide)

/-- Counterexample to C5 as stated: `payoutRatio = 0` is present, non-null
and `≤ 0.40`, yet the payout criterion awards 0 points with value `N/A`
(zero is falsy, so the `payout_ratio and ...` guard fails). -/
theorem payout_zero_scores_zero :
    calculate_comprehensive_score (some [("payoutRatio", Val.num 0)]) =
      .ok (0,
        [("revenue", .detail ⟨0, sFail, .na⟩), ("eps", .detail ⟨0, sFail, .na⟩),
         ("assets", .detail ⟨0, sFail, .na⟩),
         ("operating_cf", .detail ⟨0, sFail, .na⟩),
         ("cash", .detail ⟨0, sFail, .na⟩), ("roe", .detail ⟨0, sFail, .na⟩),
         ("equity_ratio", .detail ⟨0, sFail, .na⟩),
         ("dividend", .detail ⟨0, sFail, .na⟩),
         ("payout_ratio", .detail ⟨0, sFail, .na⟩)]) := by decide

/-- Claim C5 (amended): a present, numeric, *non-zero* `payoutRatio` that is
`≤ 0.40` awards the full 10 points; a zero `payoutRatio` is treated like an
absent field and awards 0 points with value `N/A`. -/
theorem payout_pass_iff_nonzero :
    (∀ q : ℚ, q ≠ 0 → q ≤ mkRat 40 100 →
      scorePayout (Val.num q) = .ok ⟨10, sPass, .pct q⟩) ∧
    scorePayout (Val.num 0) = .ok ⟨0, sFail, .na⟩ := by
  refine ⟨?_, by decide⟩
  intro q h0 hle
  unfold scorePayout
  rw [pandLe_num, decide_eq_true h0, decide_eq_true hle]
  rfl

/-- Witness for the amended C5 at `payoutRatio = 0.35`. -/
theorem payout_pass_iff_nonzero_witness :
    scorePayout (Val.num (mkRat 35 100)) = .ok ⟨10, sPass, .pct (mkRat 35 100)⟩ :=
  payout_pass_iff_nonzero.1 (mkRat 35 100) (by decide) (by decide)

/-- Claim C9: `debtToEquity` is the only criterion where a zero field value
counts as present — zero (and any value below 100, negatives included)
earns the full 10 points — while a zero value in any other numeric
criterion field earns 0 points with value `N/A`. -/
theorem zero_presence_asymmetry :
    (∀ q : ℚ, q < 100 → scoreEquity (Val.num q) = .ok ⟨10, sPass, .dte q⟩) ∧
    scoreEquity (Val.num 0) = .ok ⟨10, sPass, .dte 0⟩ ∧
    scoreRevenue (Val.num 0) = .ok ⟨0, sFail, .na⟩ ∧
    (∀ w : Val, scoreEps (Val.num 0) w = .ok ⟨0, sFail, .na⟩) ∧
    scoreAssets (Val.num 0) = .ok ⟨0, sFail, .na⟩ ∧
    scoreOperatingCf (Val.num 0) = .ok ⟨0, sFail, .na⟩ ∧
    scoreCash (Val.num 0) = .ok ⟨0, sFail, .na⟩ ∧
    scoreRoe (Val.num 0) = .ok ⟨0, sFail, .na⟩ ∧
    scoreDividend (Val.num 0) = .ok ⟨0, sFail, .na⟩ ∧
    scorePayout (Val.num 0) = .ok ⟨0, sFail, .na⟩ := by
  refine ⟨?_, by decide, by decide, fun w => ?_, by decide, by decide, by decide,
    by decide, by decide, by decide⟩
  · intro q hq
    unfold scoreEquity
    rw [notNullLt_num, decide_eq_true hq]
    rfl
  · rfl

/-- Witness for C9 at the negative debt-to-equity value `-25`. -/
theorem zero_presence_asymmetry_witness :
    scoreEquity (Val.num (-25)) = .ok ⟨10, sPass, .dte (-25)⟩ :=
  zero_presence_asymmetry.1 (-25) (by decide)

/-! ### History store -/

/-- One persisted analysis record (the `entry` dict built in
`save_history`, lines 237-243).  The `score_details` payload is carried
along unchanged by the persistence layer and irrelevant to every
persistence property, so it is left out of the record. -/
structure AnalysisRecord where
  stock_code : String
  company_name : String
  score : ℤ
  date : String
deriving DecidableEq

/-- `save_history` (lines 234-248) as a state transformer on the loaded
history list: append the entry, keep only the most recent 100
(`history = history[-100:]`), and persist the result.  (The
`update_monthly_ranking(entry)` call it then makes is modelled separately
below.) -/
def save_history (history : List AnalysisRecord) (entry : AnalysisRecord) :
    List AnalysisRecord :=
  let h := history ++ [entry]
  h.drop (h.length - 100)

/-- `l[-n:]` is `List.rtake`. -/
lemma save_history_eq_rtake (h : List AnalysisRecord) (e : AnalysisRecord) :
    save_history h e = (h ++ [e]).rtake 100 := rfl

lemma take_cons_take {α : Type _} (n : ℕ) (x : α) (r : List α) :
    (x :: r.take n).take n = (x :: r).take n := by
  cases n with
  | zero => rfl
  | succ k =>
    simp only [List.take_succ_cons, List.take_take]
    rw [min_eq_left (by omega : k ≤ k + 1)]

/-- Retaking the last `n` after an append only depends on the last `n`
already retained. -/
lemma rtake_append_singleton {α : Type _} (n : ℕ) (m : List α) (x : α) :
    (m.rtake n ++ [x]).rtake n = (m ++ [x]).rtake n := by
  rw [List.rtake_eq_reverse_take_reverse, List.rtake_eq_reverse_take_reverse,
    List.rtake_eq_reverse_take_reverse]
  simp only [List.reverse_append, List.reverse_cons, List.reverse_nil,
    List.nil_append, List.singleton_append, List.reverse_reverse]
  rw [take_cons_take]

/-- Folding appends through the capacity-bounded store equals retaining the
last 100 of the fully appended sequence. -/
lemma foldl_save_history (l : List AnalysisRecord) :
    ∀ m : List AnalysisRecord,
      List.foldl save_history (m.rtake 100) l = (m ++ l).rtake 100 := by
  induction l with
  | nil => intro m; simp
  | cons x l ih =>
    intro m
    rw [List.foldl_cons, save_history_eq_rtake, rtake_append_singleton,
      ih (m ++ [x]), List.append_assoc, List.singleton_append]

/-- Claim C3: every append leaves the persisted history at length at most
100, and appending 105 sequential records to an initially empty log leaves
exactly the last 100 records in their original relative order (the oldest
five dropped first). -/
theorem history_capacity_and_fifo :
    (∀ (h : List AnalysisRecord) (e : AnalysisRecord),
      (save_history h e).length ≤ 100) ∧
    (∀ l : List AnalysisRecord, l.length = 105 →
      List.foldl save_history [] l = l.drop 5) := by
  constructor
  · intro h e
    show ((h ++ [e]).drop ((h ++ [e]).length - 100)).length ≤ 100
    rw [List.length_drop]
    omega
  · intro l hl
    have h2 := foldl_save_history l []
    rw [List.rtake_nil, List.nil_append] at h2
    rw [h2, List.rtake, hl]

/-- Witness for C3: one concrete append, and 105 concrete records. -/
theorem history_capacity_and_fifo_witness :
    (save_history [] ⟨"7203", "トヨタ自動車", 80, "2025-01-01 00:00:00"⟩).length ≤ 100 ∧
    List.foldl save_history []
        ((List.range 105).map fun i =>
          (⟨toString i, "co", (i : ℤ), "2025-01-01 00:00:00"⟩ : AnalysisRecord)) =
      ((List.range 105).map fun i =>
        (⟨toString i, "co", (i : ℤ), "2025-01-01 00:00:00"⟩ : AnalysisRecord)).drop 5 :=
  ⟨history_capacity_and_fifo.1 [] ⟨"7203", "トヨタ自動車", 80, "2025-01-01 00:00:00"⟩,
   history_capacity_and_fifo.2 _ (by rw [List.length_map]; exact List.length_range 105)⟩

/-! ### Monthly-ranking aggregator -/

/-- The persisted ranking mapping: month key (`YYYY-MM`) to bucket.
Modelled as an insertion-ordered association list, like a Python dict;
reachable states never hold a duplicate key. -/
abbrev Rankings := List (String × List AnalysisRecord)

/-- Python `k in rankings` / `rankings[k]` read access. -/
def Rankings.find : Rankings → String → Option (List AnalysisRecord)
  | [], _ => none
  | (k', v) :: rest, k => if k' = k then some v else Rankings.find rest k

/-- Python `rankings[k] = v`: replace in place if the key exists, else
append the new key at the end (dict insertion order). -/
def Rankings.set : Rankings → String → List AnalysisRecord → Rankings
  | [], k, v => [(k, v)]
  | (k', v') :: rest, k, v =>
    if k' = k then (k, v) :: rest else (k', v') :: Rankings.set rest k v

/-- The sort order of `rankings[cm].sort(key=lambda x: x['score'],
reverse=True)`: descending by score.  Python's `list.sort` is stable, and a
stable sort's output is unique, so it is modelled by insertion sort under
this non-strict relation, which is stable (proved below as
`filter_score_insertionSort`). -/
def scoreGe (a b : AnalysisRecord) : Prop := b.score ≤ a.score

instance : DecidableRel scoreGe :=
  fun a b => inferInstanceAs (Decidable (b.score ≤ a.score))

instance : IsTotal AnalysisRecord scoreGe := ⟨fun a b => le_total b.score a.score⟩

instance : IsTrans AnalysisRecord scoreGe := ⟨fun _ _ _ h1 h2 => le_trans h2 h1⟩

/-- `update_monthly_ranking` (lines 253-276) as a state transformer on the
loaded rankings mapping.  `current_month` (the wall-clock `YYYY-MM` of
line 255) is passed as a parameter. -/
def update_monthly_ranking (current_month : String) (rankings : Rankings)
    (entry : AnalysisRecord) : Rankings :=
  let rk := match Rankings.find rankings current_month with
    | some _ => rankings
    | none => Rankings.set rankings current_month []
  let bucket := (Rankings.find rk current_month).getD []
  let deduped := bucket.filter (fun r => decide (r.stock_code ≠ entry.stock_code))
  Rankings.set rk current_month (List.insertionSort scoreGe (deduped ++ [entry]))

lemma find_set_self (rk : Rankings) (k : String) (v : List AnalysisRecord) :
    Rankings.find (Rankings.set rk k v) k = some v := by
  induction rk with
  | nil => simp [Rankings.set, Rankings.find]
  | cons p rest ih =>
    obtain ⟨k', v'⟩ := p
    unfold Rankings.set
    by_cases h : k' = k
    · simp [h, Rankings.find]
    · simp [h, Rankings.find, ih]

lemma find_set_ne (rk : Rankings) (k k' : String) (v : List AnalysisRecord)
    (h : k' ≠ k) :
    Rankings.find (Rankings.set rk k v) k' = Rankings.find rk k' := by
  induction rk with
  | nil => simp [Rankings.set, Rankings.find, Ne.symm h]
  | cons p rest ih =>
    obtain ⟨k'', v''⟩ := p
    unfold Rankings.set
    by_cases hk : k'' = k
    · subst hk
      simp [Rankings.find, Ne.symm h]
    · simp [hk, Rankings.find, ih]

/-- After the update, the current month's bucket is exactly the stable
descending sort of (old bucket with the entry's ticker removed) ++ [entry]. -/
lemma update_bucket (cm : String) (rk : Rankings) (e : AnalysisRecord) :
    Rankings.find (update_monthly_ranking cm rk e) cm =
      some (List.insertionSort scoreGe
        (((Rankings.find rk cm).getD []).filter
            (fun r => decide (r.stock_code ≠ e.stock_code)) ++ [e])) := by
  unfold update_monthly_ranking
  cases hf : Rankings.find rk cm with
  | some b => simp [hf, find_set_self]
  | none => simp [hf, find_set_self]

/-- Stability of one ordered insertion: the records of any fixed score
appear in the same order as in `a :: m` (no sortedness assumption needed:
`a` is inserted before every element of score `≤ a.score`, in particular
before every tie). -/
lemma filter_score_orderedInsert (s : ℤ) (a : AnalysisRecord)
    (m : List AnalysisRecord) :
    (List.orderedInsert scoreGe a m).filter (fun r => decide (r.score = s)) =
      (a :: m).filter (fun r => decide (r.score = s)) := by
  induction m with
  | nil => rfl
  | cons b m ih =>
    unfold List.orderedInsert
    by_cases hab : scoreGe a b
    · simp [hab]
    · rw [if_neg hab]
      by_cases pb : b.score = s
      · have pa : ¬a.score = s := by
          intro pa
          exact hab (le_of_eq (pb.trans pa.symm))
        simp [List.filter_cons, pa, pb, ih]
      · simp [List.filter_cons, pb, ih]

/-- Stability of the whole sort: filtering to any fixed score commutes with
`insertionSort scoreGe`, i.e. ties retain their relative input order. -/
lemma filter_score_insertionSort (s : ℤ) (l : List AnalysisRecord) :
    (List.insertionSort scoreGe l).filter (fun r => decide (r.score = s)) =
      l.filter (fun r => decide (r.score = s)) := by
  induction l with
  | nil => rfl
  | cons a l ih =>
    show ((List.insertionSort scoreGe l).orderedInsert scoreGe a).filter _ = _
    rw [filter_score_orderedInsert]
    simp [List.filter_cons, ih]

lemma nodup_dedup_append (old : List AnalysisRecord) (e : AnalysisRecord)
    (h : (old.map AnalysisRecord.stock_code).Nodup) :
    ((old.filter (fun r => decide (r.stock_code ≠ e.stock_code)) ++ [e]).map
        AnalysisRecord.stock_code).Nodup := by
  rw [List.map_append, List.nodup_append]
  refine ⟨((List.filter_sublist old).map _).nodup h, by simp, ?_⟩
  intro c hc1 hc2
  simp only [List.map_cons, List.map_nil, List.mem_singleton] at hc2
  subst hc2
  obtain ⟨r, hr, hrc⟩ := List.mem_map.1 hc1
  have := List.of_mem_filter hr
  rw [decide_eq_true_eq] at this
  exact this (hrc)

/-- Claim C4: if the current month's persisted bucket holds no duplicate
tickers (the store's invariant), then after `update_monthly_ranking` the
bucket (a) still holds no duplicate tickers — a re-analyzed ticker's prior
entry is removed, (b) is sorted by score descending, (c) is a permutation
of (old bucket minus the entry's ticker) ++ [entry], and (d) keeps ties in
relative insertion order (stable sort). -/
theorem ranking_bucket_invariants (rk : Rankings) (e : AnalysisRecord)
    (cm : String)
    (hnd : (((Rankings.find rk cm).getD []).map AnalysisRecord.stock_code).Nodup) :
    ∃ b, Rankings.find (update_monthly_ranking cm rk e) cm = some b ∧
      (b.map AnalysisRecord.stock_code).Nodup ∧
      b.Sorted scoreGe ∧
      b.Perm (((Rankings.find rk cm).getD []).filter
          (fun r => decide (r.stock_code ≠ e.stock_code)) ++ [e]) ∧
      ∀ s : ℤ, b.filter (fun r => decide (r.score = s)) =
        ((((Rankings.find rk cm).getD []).filter
            (fun r => decide (r.stock_code ≠ e.stock_code))) ++ [e]).filter
          (fun r => decide (r.score = s)) := by
  refine ⟨_, update_bucket cm rk e, ?_, List.sorted_insertionSort scoreGe _,
    List.perm_insertionSort scoreGe _, fun s => filter_score_insertionSort s _⟩
  exact ((List.perm_insertionSort scoreGe _).map _).nodup_iff.2
    (nodup_dedup_append _ e hnd)

/-- Witness for C4: updating an empty store with one record. -/
theorem ranking_bucket_invariants_witness :
    ∃ b, Rankings.find
        (update_monthly_ranking "2025-10" []
          ⟨"7203", "トヨタ自動車", 80, "2025-10-01 00:00:00"⟩) "2025-10" = some b ∧
      (b.map AnalysisRecord.stock_code).Nodup ∧
      b.Sorted scoreGe ∧
      b.Perm (((Rankings.find ([] : Rankings) "2025-10").getD []).filter
          (fun r : AnalysisRecord => decide (r.stock_code ≠ "7203")) ++
          [⟨"7203", "トヨタ自動車", 80, "2025-10-01 00:00:00"⟩]) ∧
      ∀ s : ℤ, b.filter (fun r => decide (r.score = s)) =
        ((((Rankings.find ([] : Rankings) "2025-10").getD []).filter
            (fun r : AnalysisRecord => decide (r.stock_code ≠ "7203"))) ++
          ([⟨"7203", "トヨタ自動車", 80, "2025-10-01 00:00:00"⟩] :
            List AnalysisRecord)).filter
          (fun r : AnalysisRecord => decide (r.score = s)) :=
  ranking_bucket_invariants [] ⟨"7203", "トヨタ自動車", 80, "2025-10-01 00:00:00"⟩
    "2025-10" (by decide)

/-- Claim C10: `update_monthly_ranking` only touches the current month's
bucket — every other month key maps to its exact prior sequence — and no
month key is ever removed from the mapping. -/
theorem ranking_frame_effect (rk : Rankings) (e : AnalysisRecord) (cm : String) :
    (∀ k, k ≠ cm →
      Rankings.find (update_monthly_ranking cm rk e) k = Rankings.find rk k) ∧
    (∀ k, (Rankings.find rk k).isSome →
      (Rankings.find (update_monthly_ranking cm rk e) k).isSome) := by
  have frame : ∀ k, k ≠ cm →
      Rankings.find (update_monthly_ranking cm rk e) k = Rankings.find rk k := by
    intro k hk
    unfold update_monthly_ranking
    cases hf : Rankings.find rk cm with
    | some b => simp [find_set_ne _ _ _ _ hk]
    | none => simp [find_set_ne _ _ _ _ hk]
  refine ⟨frame, ?_⟩
  intro k hk
  by_cases h : k = cm
  · subst h
    rw [update_bucket]
    rfl
  · rw [frame k h]
    exact hk

/-- Witness for C10: the September bucket is untouched by an October update. -/
theorem ranking_frame_effect_witness :
    Rankings.find
        (update_monthly_ranking "2025-10"
          [("2025-09", [⟨"7203", "トヨタ自動車", 80, "2025-09-15 00:00:00"⟩])]
          ⟨"6758", "ソニーグループ", 70, "2025-10-01 00:00:00"⟩) "2025-09" =
      Rankings.find
        [("2025-09", [⟨"7203", "トヨタ自動車", 80, "2025-09-15 00:00:00"⟩])]
        "2025-09" ∧
    (Rankings.find
        (update_monthly_ranking "2025-10"
          [("2025-09", [⟨"7203", "トヨタ自動車", 80, "2025-09-15 00:00:00"⟩])]
          ⟨"6758", "ソニーグループ", 70, "2025-10-01 00:00:00"⟩) "2025-09").isSome :=
  ⟨(ranking_frame_effect
      [("2025-09", [⟨"7203", "トヨタ自動車", 80, "2025-09-15 00:00:00"⟩])]
      ⟨"6758", "ソニーグループ", 70, "2025-10-01 00:00:00"⟩ "2025-10").1
      "2025-09" (by decide),
   (ranking_frame_effect
      [("2025-09", [⟨"7203", "トヨタ自動車", 80, "2025-09-15 00:00:00"⟩])]
      ⟨"6758", "ソニーグループ", 70, "2025-10-01 00:00:00"⟩ "2025-10").2
      "2025-09" (by decide)⟩

/-! ### Retry-aware fetcher -/

/-- Python `pat in s` substring test. -/
def strContains (s pat : String) : Bool :=
  s.toList.tails.any (fun t => pat.toList.isPrefixOf t)

/-- The rate-limit signature test of line 123:
`"Too Many Requests" in error_msg or "Rate limit" in error_msg`. -/
def isRateLimitMsg (msg : String) : Bool :=
  strContains msg "Too Many Requests" || strContains msg "Rate limit"

/-- What the provider does during one loop iteration of
`fetch_stock_data`: either some provider call raises an exception with the
given message, or the full-history query returns the given price rows
together with the outcome of the best-effort `stock.info` call (`none`
models the inner `except` of lines 110-112; the rows only matter through
`hist.empty`, so a row is reduced to its closing price). -/
inductive AttemptOutcome where
  | raise : String → AttemptOutcome
  | ok : List ℚ → Option Info → AttemptOutcome

/-- The normalized bundle returned on success (lines 114-118). -/
structure Bundle where
  company_name : Val
  info : Info
  history : List ℚ
deriving DecidableEq

/-- `info.get('longName', info.get('shortName', f'銘柄\x7bstock_code\x7d'))`
(line 109).  Python `dict.get(k, d)` returns the stored value whenever the
key is present — even a stored `None` — else the default. -/
def resolveName (info : Info) (code : String) : Val :=
  match info.find? (fun p => p.1 = "longName") with
  | some p => p.2
  | none =>
    match info.find? (fun p => p.1 = "shortName") with
    | some p => p.2
    | none => .str ("銘柄" ++ code)

def max_retries : ℕ := 3

def retry_delay : ℕ := 2

/-- Result of one iteration of the retry loop: return a value, or sleep
for the given backoff and continue. -/
inductive StepResult where
  | done : Option Bundle → StepResult
  | retry : ℕ → StepResult
deriving DecidableEq

/-- One iteration of the `for attempt in range(max_retries)` loop
(lines 92-136): empty history returns `None` immediately (lines 101-103);
a successful history query returns the bundle (lines 107-118); an
exception is classified by `isRateLimitMsg` — rate-limited attempts wait
`retry_delay * (attempt + 1)` (escalating), any other error waits a flat
`retry_delay`, and in either case the last attempt returns `None` instead
of retrying. -/
def loopBody (code : String) (outcome : AttemptOutcome) (attempt : ℕ) :
    StepResult :=
  match outcome with
  | .ok rows infoOpt =>
    if rows.isEmpty then .done Option.none
    else
      match infoOpt with
      | some info => .done (some ⟨resolveName info code, info, rows⟩)
      | Option.none => .done (some ⟨.str ("銘柄" ++ code), [], rows⟩)
  | .raise msg =>
    if isRateLimitMsg msg then
      if attempt < max_retries - 1 then .retry (retry_delay * (attempt + 1))
      else .done Option.none
    else
      if attempt < max_retries - 1 then .retry retry_delay
      else .done Option.none

/-- The observable trace of one `fetch_stock_data` call: how many loop
iterations ran (each makes its provider queries), which retry backoff
sleeps occurred (the unconditional 1-second courtesy sleeps inside an
iteration are not retries and are not traced), and the returned value. -/
structure FetchTrace where
  attempts : ℕ
  backoffs : List ℕ
  result : Option Bundle
deriving DecidableEq

/-- `fetch_stock_data` (lines 87-138) with the provider abstracted as the
per-iteration outcome oracle.  The `range(3)` loop is unrolled; falling out
of the loop hits the final `return None` (line 138). -/
def fetch_stock_data (code : String) (provider : ℕ → AttemptOutcome) :
    FetchTrace :=
  match loopBody code (provider 0) 0 with
  | .done r => ⟨1, [], r⟩
  | .retry w0 =>
    match loopBody code (provider 1) 1 with
    | .done r => ⟨2, [w0], r⟩
    | .retry w1 =>
      match loopBody code (provider 2) 2 with
      | .done r => ⟨3, [w0, w1], r⟩
      | .retry w2 => ⟨3, [w0, w1, w2], Option.none⟩

/-- Claim C8: if the provider returns an empty full-history series on the
first iteration, the fetch fails on that same iteration: one attempt, no
backoff sleep, no further provider queries. -/
theorem fetch_empty_history_immediate (code : String)
    (provider : ℕ → AttemptOutcome) (infoOpt : Option Info)
    (h0 : provider 0 = .ok [] infoOpt) :
    fetch_stock_data code provider = ⟨1, [], Option.none⟩ := by
  unfold fetch_stock_data
  rw [h0]
  rfl

/-- Witness for C8 with a concrete provider. -/
theorem fetch_empty_history_immediate_witness :
    fetch_stock_data "7203" (fun _ => AttemptOutcome.ok [] Option.none) =
      ⟨1, [], Option.none⟩ :=
  fetch_empty_history_immediate "7203" (fun _ => AttemptOutcome.ok [] Option.none)
    Option.none rfl

/-- Counterexample to C6 as stated: a provider that always raises a
non-rate-limit error causes three total attempts (the loop guard is
`attempt < max_retries - 1` with `max_retries = 3` for every error class),
not the claimed two. -/
theorem transient_error_three_attempts :
    fetch_stock_data "7203" (fun _ => .raise "connection reset by peer") =
      ⟨3, [2, 2], Option.none⟩ ∧
    (fetch_stock_data "7203" (fun _ => .raise "connection reset by peer")).attempts
      ≠ 2 := by
  refine ⟨by decide, by decide⟩

/-- Claim C6 (amended): a provider error that does not match the rate-limit
signature is retried at a flat, non-escalating delay, but twice rather than
once: a provider that always raises a non-rate-limit error causes exactly
three total attempts with two flat `retry_delay`-unit waits before the
fetch returns failure. -/
theorem transient_error_retry_policy (code : String)
    (provider : ℕ → AttemptOutcome)
    (h : ∀ n, ∃ msg, provider n = .raise msg ∧ isRateLimitMsg msg = false) :
    fetch_stock_data code provider = ⟨3, [2, 2], Option.none⟩ := by
  obtain ⟨m0, h0, r0⟩ := h 0
  obtain ⟨m1, h1, r1⟩ := h 1
  obtain ⟨m2, h2, r2⟩ := h 2
  have l0 : loopBody code (provider 0) 0 = .retry 2 := by
    rw [h0]; simp [loopBody, r0, max_retries, retry_delay]
  have l1 : loopBody code (provider 1) 1 = .retry 2 := by
    rw [h1]; simp [loopBody, r1, max_retries, retry_delay]
  have l2 : loopBody code (provider 2) 2 = .done Option.none := by
    rw [h2]; simp [loopBody, r2, max_retries, retry_delay]
  unfold fetch_stock_data
  rw [l0, l1, l2]

/-- Witness for the amended C6 with a concrete always-failing provider. -/
theorem transient_error_retry_policy_witness :
    fetch_stock_data "6758" (fun _ => .raise "boom") = ⟨3, [2, 2], Option.none⟩ :=
  transient_error_retry_policy "6758" (fun _ => .raise "boom")
    (fun _ => ⟨"boom", rfl, by decide⟩)

end StockApp
